import Mathlib

set_option maxRecDepth 16000

/-!
Shallow embedding of the listings MVP backend (Express/TypeScript server,
`src/unnamed/part_000`, plus the duplicated client helpers in
`src/client/script.js`), with verification of the behavioural claims about
the City Directory, the Contact Validator, the Project Record Store and the
Request Handlers.

Machine strings are modelled by Lean `String`/`List Char`.  JavaScript
`String.prototype.toLowerCase` is modelled for the alphabets that occur in
this system's data (ASCII Latin and Cyrillic, including Ё): every city name
and every realistic query is covered by this case map.
-/

namespace MVP

/-- Case-lowering of a single character, modelling JavaScript
`toLowerCase` on ASCII Latin letters, the Cyrillic range А..Я and the
letter Ё (the alphabets appearing in the city directory). -/
def jsCharLower (c : Char) : Char :=
  if 'A' ≤ c ∧ c ≤ 'Z' then Char.ofNat (c.toNat + 32)
  else if 'А' ≤ c ∧ c ≤ 'Я' then Char.ofNat (c.toNat + 32)
  else if c = 'Ё' then 'ё'
  else c

/-- `s.toLowerCase()` of the source, as a map over the characters. -/
def jsToLower (s : String) : String :=
  String.mk (s.data.map jsCharLower)

/-- `RUSSIAN_CITIES` — the fixed city directory of the server, in its
enumeration order. -/
def RUSSIAN_CITIES : List String := [
  "Москва", "Санкт-Петербург", "Новосибирск", "Екатеринбург", "Казань",
  "Нижний Новгород", "Челябинск", "Самара", "Омск", "Ростов-на-Дону",
  "Уфа", "Красноярск", "Воронеж", "Пермь", "Волгоград",
  "Краснодар", "Саратов", "Тюмень", "Тольятти", "Ижевск",
  "Барнаул", "Ульяновск", "Иркутск", "Хабаровск", "Ярославль",
  "Владивосток", "Махачкала", "Томск", "Оренбург", "Кемерово",
  "Новокузнецк", "Рязань", "Астрахань", "Набережные Челны", "Пенза",
  "Липецк", "Киров", "Чебоксары", "Тула", "Калининград",
  "Балашиха", "Курск", "Севастополь", "Сочи", "Ставрополь",
  "Улан-Удэ", "Тверь", "Магнитогорск", "Иваново", "Брянск",
  "Белгород", "Сургут", "Владимир", "Нижний Тагил", "Архангельск",
  "Чита", "Калуга", "Симферополь", "Смоленск", "Волжский",
  "Саранск", "Череповец", "Курган", "Орёл", "Вологда",
  "Якутск", "Подольск", "Стерлитамак", "Грозный", "Владикавказ",
  "Мурманск", "Тамбов", "Петрозаводск", "Кострома", "Нижневартовск",
  "Новороссийск", "Йошкар-Ола", "Химки", "Таганрог", "Комсомольск-на-Амуре",
  "Сыктывкар", "Нальчик", "Шахты", "Дзержинск", "Орск",
  "Братск", "Энгельс", "Ангарск", "Королёв", "Псков",
  "Бийск", "Прокопьевск", "Рыбинск", "Балаково", "Армавир",
  "Южно-Сахалинск", "Северодвинск", "Абакан", "Норильск", "Люберцы",
  "Мытищи", "Миасс", "Новочеркасск", "Каменск-Уральский", "Златоуст",
  "Электросталь", "Альметьевск", "Салават", "Копейск", "Пятигорск",
  "Рубцовск", "Березники", "Коломна", "Майкоп", "Одинцово",
  "Ковров", "Кисловодск", "Железнодорожный", "Новомосковск", "Серпухов",
  "Новошахтинск", "Нефтеюганск", "Первоуральск", "Дербент", "Черкесск",
  "Орехово-Зуево", "Нефтекамск", "Красногорск", "Димитровград", "Батайск",
  "Муром", "Гатчина", "Сергиев Посад", "Новотроицк", "Воскресенск",
  "Елец", "Евпатория", "Реутов", "Арзамас", "Бердск",
  "Элиста", "Ногинск", "Домодедово", "Обнинск", "Каспийск",
  "Кызыл", "Назрань", "Раменское", "Находка", "Уссурийск"]

/-- `validateCity` — a city is valid when it is non-empty (the `!city`
falsy guard) and some directory entry equals it after lowering case. -/
def validateCity (city : String) : Bool :=
  if city = "" then false
  else RUSSIAN_CITIES.any (fun russianCity => jsToLower russianCity == jsToLower city)

/-- The digits of a string, modelling `s.replace(/\D/g, '')`. -/
def digitsOf (s : String) : List Char :=
  s.data.filter Char.isDigit

/-- `formatPhone` — empty input yields `''`; if stripping non-digits
leaves exactly 11 digits, the result is the template string
`+7 (XXX) XXX-XX-XX` assembled from `rest = digits.substring(1)` (the
source computes `rest` identically in the `startsWith('8')` branch and in
the other branch); otherwise the input is returned unchanged. -/
def formatPhone (phone : String) : String :=
  if phone = "" then ""
  else
    let digits := digitsOf phone
    if digits.length = 11 then
      let rest := if digits.take 1 = ['8'] then digits.drop 1 else digits.drop 1
      String.mk ('+' :: '7' :: ' ' :: '(' :: rest.take 3 ++ ')' :: ' ' :: (rest.drop 3).take 3
        ++ '-' :: (rest.drop 6).take 2 ++ '-' :: (rest.drop 8).take 2)
    else phone

/-- A separator character of the word-splitting regular expression
`/[-\\s]+/`: a hyphen or whitespace. -/
def isSep (c : Char) : Bool := c = '-' || c.isWhitespace

/-- `String.prototype.split(/[-\\s]+/)` semantics over the characters:
`inRun` tells whether the scan stands inside a separator run, `cur` holds
the reversed current word. -/
def splitSepGo (inRun : Bool) (cur : List Char) : List Char → List (List Char)
  | [] => if inRun then [[]] else [cur.reverse]
  | c :: rest =>
    if isSep c then
      if inRun then splitSepGo true [] rest
      else cur.reverse :: splitSepGo true [] rest
    else
      if inRun then splitSepGo false [c] rest
      else splitSepGo false (c :: cur) rest

/-- `city.split(/[-\\s]+/)` — split into words on runs of spaces and
hyphens. -/
def splitWords (s : String) : List String :=
  (splitSepGo false [] s.data).map String.mk

/-- `s.trim()`: strip leading and trailing whitespace. -/
def jsTrim (s : String) : String :=
  String.mk (((s.data.dropWhile Char.isWhitespace).reverse.dropWhile Char.isWhitespace).reverse)

/-- `a.startsWith(b)` on strings. -/
def jsStartsWith (s pre : String) : Bool :=
  pre.data.isPrefixOf s.data

/-- `b` occurs as a contiguous substring of the character list `hay`. -/
def listIncludes (needle : List Char) : List Char → Bool
  | [] => needle.isPrefixOf []
  | c :: t => needle.isPrefixOf (c :: t) || listIncludes needle t

/-- `a.includes(b)` on strings: `b` occurs as a contiguous substring. -/
def jsIncludes (s sub : String) : Bool :=
  listIncludes sub.data s.data

/-- The `exactMatches` of the `GET /api/cities` handler: the directory
entries whose lowercased name starts with the search term, in directory
order. -/
def cityPrefixMatches (searchTerm : String) : List String :=
  RUSSIAN_CITIES.filter (fun city => jsStartsWith (jsToLower city) searchTerm)

/-- The `wordMatches` of the `GET /api/cities` handler: entries not
already among the prefix matches, one of whose name words (split on
spaces and hyphens) starts with the search term, in directory order. -/
def cityWordMatches (searchTerm : String) : List String :=
  RUSSIAN_CITIES.filter (fun city =>
    if (cityPrefixMatches searchTerm).contains city then false
    else (splitWords (jsToLower city)).any (fun word => jsStartsWith word searchTerm))

/-- The `GET /api/cities` handler's search.  A missing/blank query yields
`[]`; otherwise `searchTerm` is the lowercased, trimmed query, and word
matches are appended only when there are fewer than 10 prefix matches;
the result is cut to 15. -/
def searchCities (query : String) : List String :=
  if jsTrim query = "" then []
  else
    let searchTerm := jsTrim (jsToLower query)
    let results :=
      if (cityPrefixMatches searchTerm).length < 10 then
        cityPrefixMatches searchTerm ++ cityWordMatches searchTerm
      else cityPrefixMatches searchTerm
    results.take 15

/-- The first element of `l` satisfying `p`, written as the source's
`for … if … { x = c; break }` loop over the directory. -/
def firstHit (p : String → Bool) : List String → Option String
  | [] => none
  | c :: rest => if p c then some c else firstHit p rest

/-- The suggestion part of the `GET /api/cities/validate/:city` handler:
for an invalid city, the first directory entry whose lowercased name
starts with the lowercased input, and failing that the first entry whose
lowercased name contains it; `none` when the city is valid or nothing
matches. -/
def citySuggestion (city : String) : Option String :=
  if validateCity city then none
  else
    let input := jsToLower city
    match firstHit (fun russianCity => jsStartsWith (jsToLower russianCity) input) RUSSIAN_CITIES with
    | some s => some s
    | none => firstHit (fun russianCity => jsIncludes (jsToLower russianCity) input) RUSSIAN_CITIES

/-- `validatePhone` — vacuously true on the empty string (optional field);
otherwise the digit content must have length 11 and start with 7 or 8. -/
def validatePhone (phone : String) : Bool :=
  if phone = "" then true
  else
    let digits := digitsOf phone
    digits.length == 11 && (digits.take 1 == ['7'] || digits.take 1 == ['8'])

/-- The Contact Bundle: the four contact fields.  At creation the server
stores `JSON.stringify({phone: phone || '', email: email || '', …})`; the
serialized field is modelled by the bundle it encodes, and the export's
`JSON.parse(project.contact)` as the identity on it.  `x || ''` on a
string is the identity (the empty string is already falsy). -/
structure ContactBundle where
  phone : String
  email : String
  telegram : String
  otherContact : String
deriving DecidableEq, Repr

/-- A Project Record as persisted by the server.  `price` is a positive
number, modelled by `Nat`; `contact` is the serialized contact bundle
(see `ContactBundle`); `image` is the optional relative upload path.
The source record also mirrors the four contact fields as optional
top-level fields; no behaviour under verification reads them, so they
are not repeated here. -/
structure Project where
  id : String
  title : String
  tagline : String
  description : String
  image : Option String
  city : String
  price : Nat
  contact : ContactBundle
  createdAt : String
deriving DecidableEq, Repr

/-- `readProjects` — the Project Record Store's `loadAll`.  The
`fs.readFileSync` outcome and the `JSON.parse` deserializer are the
external collaborators, passed explicitly; the `try`/`catch` around both
turns either failure into the empty collection. -/
def readProjects (readFileResult : Except String String)
    (parseJson : String → Except String (List Project)) : List Project :=
  match readFileResult with
  | Except.error _ => []
  | Except.ok data =>
    match parseJson data with
    | Except.error _ => []
    | Except.ok projects => projects

/-- Doubling of embedded quote characters, `s.replace(/"/g, '""')`. -/
def dqChars : List Char → List Char
  | [] => []
  | c :: t => if c = '"' then '"' :: '"' :: dqChars t else c :: dqChars t

/-- `s.replace(/"/g, '""')` on strings. -/
def dqS (s : String) : String := String.mk (dqChars s.data)

/-- Wrapping a field in literal quote characters, the template
`"${x}"`. -/
def wrapQ (s : String) : String := "\"" ++ s ++ "\""

/-- The header line of the CSV export. -/
def csvHeader : String := "ID,Название,Описание,Город,Стоимость,Телефон,Email,Telegram,Дата"

/-- The field array of one CSV row, as the `GET /api/export/csv` handler
builds it before `.join(',')`: quote-doubling is applied to the title and
the tagline only; city and the three contact fields are wrapped verbatim;
id, price and the timestamp are emitted bare. -/
def rowFields (p : Project) : List String :=
  [p.id,
   wrapQ (dqS p.title),
   wrapQ (dqS p.tagline),
   wrapQ p.city,
   toString p.price,
   wrapQ p.contact.phone,
   wrapQ p.contact.email,
   wrapQ p.contact.telegram,
   p.createdAt]

/-- The CSV export: the header line, then one comma-joined row per
record, each line terminated by a newline, accumulated in order. -/
def exportCsv (projects : List Project) : String :=
  projects.foldl (fun csv p => csv ++ String.intercalate "," (rowFields p) ++ "\n")
    (csvHeader ++ "\n")

/-- The state the `DELETE /api/projects/:id` handler acts on: the stored
collection and the file storage, the latter as the relative paths (under
the server directory) of the files that exist. -/
structure StoreState where
  projects : List Project
  files : List String
deriving DecidableEq, Repr

/-- The `DELETE /api/projects/:id` handler.  `findIndex` locates the
record; a miss answers not-found (`false`) and changes nothing.  On a
hit, the image file is unlinked only when the record carries an image
reference starting with `uploads/` and the file exists; the record is
spliced out either way. -/
def deleteProject (st : StoreState) (idParam : String) : StoreState × Bool :=
  match st.projects.findIdx? (fun p => p.id == idParam) with
  | none => (st, false)
  | some projectIndex =>
    match st.projects.get? projectIndex with
    | none => (st, false)
    | some project =>
      let files :=
        match project.image with
        | some img =>
          if jsStartsWith img "uploads/" then
            if st.files.contains img then st.files.erase img else st.files
          else st.files
        | none => st.files
      (⟨st.projects.eraseIdx projectIndex, files⟩, true)

/-- Calendar timestamp components, as carried by an ISO-8601 string
`YYYY-MM-DDTHH:MM…` (seconds and below never move the calendar day and
are not tracked). -/
structure DateTime where
  year : Nat
  month : Nat
  day : Nat
  hour : Nat
  minute : Nat
deriving DecidableEq, Repr

/-- The numeric value of a decimal digit character. -/
def charDigit (c : Char) : Option Nat :=
  if c.isDigit then some (c.toNat - 48) else none

/-- Days in a month under the Gregorian leap rule. -/
def daysInMonth (year month : Nat) : Nat :=
  if month = 2 then
    if (year % 4 = 0 ∧ year % 100 ≠ 0) ∨ year % 400 = 0 then 29 else 28
  else if month = 4 ∨ month = 6 ∨ month = 9 ∨ month = 11 then 30 else 31

/-- In-range calendar components. -/
def validDate (dt : DateTime) : Bool :=
  1 ≤ dt.month && dt.month ≤ 12 && 1 ≤ dt.day && dt.day ≤ daysInMonth dt.year dt.month
    && dt.hour < 24 && dt.minute < 60

/-- Parse of the `YYYY-MM-DDTHH:MM` prefix of an ISO-8601 UTC timestamp
(the shape `new Date().toISOString()` persists); `none` on any other
shape or out-of-range components, where the real handler's
`new Date(…).toISOString()` would throw into the surrounding `catch`. -/
def parseIso (s : String) : Option DateTime :=
  match s.data with
  | y1 :: y2 :: y3 :: y4 :: c1 :: m1 :: m2 :: c2 :: d1 :: d2 :: c3 :: h1 :: h2 :: c4 :: n1 :: n2 :: _ =>
    if c1 = '-' ∧ c2 = '-' ∧ c3 = 'T' ∧ c4 = ':' then
      match charDigit y1, charDigit y2, charDigit y3, charDigit y4, charDigit m1,
        charDigit m2, charDigit d1, charDigit d2, charDigit h1, charDigit h2,
        charDigit n1, charDigit n2 with
      | some a, some b, some c, some d, some e, some f, some g, some h, some i,
        some j, some k, some l =>
        let dt : DateTime :=
          ⟨a * 1000 + b * 100 + c * 10 + d, e * 10 + f, g * 10 + h, i * 10 + j, k * 10 + l⟩
        if validDate dt then some dt else none
      | _, _, _, _, _, _, _, _, _, _, _, _ => none
    else none
  | _ => none

/-- Zero-padded two-digit rendering. -/
def pad2 (n : Nat) : String := if n < 10 then "0" ++ toString n else toString n

/-- Zero-padded four-digit rendering. -/
def pad4 (n : Nat) : String :=
  if n < 10 then "000" ++ toString n
  else if n < 100 then "00" ++ toString n
  else if n < 1000 then "0" ++ toString n
  else toString n

/-- The `YYYY-MM-DD` date part of a timestamp, i.e.
`new Date(s).toISOString().split('T')[0]` for a well-formed UTC
timestamp. -/
def utcDateString (dt : DateTime) : String :=
  pad4 dt.year ++ "-" ++ pad2 dt.month ++ "-" ++ pad2 dt.day

/-- The `GET /api/projects/date/:date` handler: keep the records whose
creation timestamp's UTC calendar-date part equals the requested date,
in stored order. -/
def findByCreationDate (projects : List Project) (date : String) : List Project :=
  projects.filter (fun project =>
    match parseIso project.createdAt with
    | some dt => utcDateString dt == date
    | none => false)

/-- The calendar date preceding `(year, month, day)`. -/
def prevDate : Nat × Nat × Nat → Nat × Nat × Nat
  | (y, m, d) =>
    if 1 < d then (y, m, d - 1)
    else if 1 < m then (y, m - 1, daysInMonth y (m - 1))
    else (y - 1, 12, 31)

/-- The calendar date following `(year, month, day)`. -/
def nextDate : Nat × Nat × Nat → Nat × Nat × Nat
  | (y, m, d) =>
    if d < daysInMonth y m then (y, m, d + 1)
    else if m < 12 then (y, m + 1, 1)
    else (y + 1, 1, 1)

/-- Rendering of `(year, month, day)` as `YYYY-MM-DD`. -/
def dateString : Nat × Nat × Nat → String
  | (y, m, d) => pad4 y ++ "-" ++ pad2 m ++ "-" ++ pad2 d

/-- The calendar day of a UTC timestamp seen from a clock `offset`
minutes ahead of UTC (real-world offsets lie strictly within ±24h). -/
def localDateString (dt : DateTime) (offset : Int) : String :=
  let t : Int := dt.hour * 60 + dt.minute + offset
  if t < 0 then dateString (prevDate (dt.year, dt.month, dt.day))
  else if 1440 ≤ t then dateString (nextDate (dt.year, dt.month, dt.day))
  else dateString (dt.year, dt.month, dt.day)

/-- Modelled from the spec's words, for comparison with
`findByCreationDate`: "exact calendar-day match on the creation
timestamp, using the server's local date components", the server clock
sitting `offset` minutes ahead of UTC. -/
def findByCreationDateLocalSpec (offset : Int) (projects : List Project)
    (date : String) : List Project :=
  projects.filter (fun project =>
    match parseIso project.createdAt with
    | some dt => localDateString dt offset == date
    | none => false)

/-! ## Helper lemmas -/

/-- Concatenation of a list of strings, in order. -/
def concatStrings : List String → String
  | [] => ""
  | s :: rest => s ++ concatStrings rest

theorem mk_append (a b : List Char) : String.mk a ++ String.mk b = String.mk (a ++ b) := rfl

theorem firstHit_eq_find (p : String → Bool) (l : List String) :
    firstHit p l = l.find? p := by
  induction l with
  | nil => rfl
  | cons c t ih =>
    by_cases h : p c = true
    · simp [firstHit, h, List.find?_cons_of_pos]
    · simp only [Bool.not_eq_true] at h
      simp [firstHit, h, List.find?_cons_of_neg, ih]

theorem no_city_lowers_to_empty : ∀ c ∈ RUSSIAN_CITIES, ¬ jsToLower c = jsToLower "" := by
  decide

/-! ## C2 — city validity is case-insensitive full equality -/

/-- C2: `isValid(name)` is true iff some directory entry equals `name`
case-insensitively (full equality, not prefix or substring); the empty
string is invalid. -/
theorem validateCity_spec (name : String) :
    (validateCity name = true ↔ ∃ c ∈ RUSSIAN_CITIES, jsToLower c = jsToLower name) ∧
    validateCity "" = false := by
  refine ⟨?_, by decide⟩
  by_cases h : name = ""
  · subst h
    constructor
    · intro hf
      exact absurd hf (by decide)
    · rintro ⟨c, hc, heq⟩
      exact absurd heq (no_city_lowers_to_empty c hc)
  · unfold validateCity
    rw [if_neg h, List.any_eq_true]
    constructor
    · rintro ⟨c, hc, hb⟩
      exact ⟨c, hc, by simpa using hb⟩
    · rintro ⟨c, hc, heq⟩
      exact ⟨c, hc, by simpa using heq⟩

/-- C2 witness: `validateCity` accepts a directory entry in a different
letter case and rejects a non-member. -/
theorem validateCity_spec_witness :
    validateCity "МОСКВА" = true ∧ validateCity "Лондон" = false := by
  constructor
  · exact (validateCity_spec "МОСКВА").1.mpr ⟨"Москва", by decide, by decide⟩
  · have h := (validateCity_spec "Лондон").1
    by_contra hc
    simp only [Bool.not_eq_false] at hc
    obtain ⟨c, hmem, heq⟩ := h.mp hc
    revert heq
    revert hmem
    revert c
    decide

/-! ## C7 — loadAll is fail-soft -/

/-- C7: `readProjects` returns the deserialized collection on success and
the empty collection on a read failure or a parse failure, never an
error. -/
theorem readProjects_fail_soft (readFileResult : Except String String)
    (parseJson : String → Except String (List Project)) :
    (∀ e, readFileResult = Except.error e → readProjects readFileResult parseJson = []) ∧
    (∀ s e, readFileResult = Except.ok s → parseJson s = Except.error e →
      readProjects readFileResult parseJson = []) ∧
    (∀ s ps, readFileResult = Except.ok s → parseJson s = Except.ok ps →
      readProjects readFileResult parseJson = ps) := by
  refine ⟨?_, ?_, ?_⟩
  · intro e he; simp [readProjects, he]
  · intro s e hs hp; simp [readProjects, hs, hp]
  · intro s ps hs hp; simp [readProjects, hs, hp]

/-- C7 witness: a failed read and a failed parse each yield the empty
collection; a successful read and parse yields the parsed records. -/
theorem readProjects_fail_soft_witness :
    readProjects (Except.error "ENOENT") (fun _ => Except.ok ([] : List Project)) = [] ∧
    readProjects (Except.ok "not json") (fun _ => Except.error "SyntaxError") = [] ∧
    readProjects (Except.ok "[]") (fun _ => Except.ok ([] : List Project)) = [] :=
  ⟨(readProjects_fail_soft _ _).1 "ENOENT" rfl,
   (readProjects_fail_soft _ _).2.1 "not json" "SyntaxError" rfl rfl,
   (readProjects_fail_soft _ _).2.2 "[]" [] rfl rfl⟩

/-! ## C4, C8, C9 — phone normalization -/

theorem digitsOf_sound (s : String) : ∀ c ∈ digitsOf s, c.isDigit = true := by
  intro c hc
  exact (List.mem_filter.mp hc).2

theorem exists_eleven {α : Type} (l : List α) (hl : l.length = 11) :
    ∃ c1 c2 c3 c4 c5 c6 c7 c8 c9 c10 c11,
      l = [c1, c2, c3, c4, c5, c6, c7, c8, c9, c10, c11] := by
  rcases l with _ | ⟨a1, l⟩
  · simp at hl
  rcases l with _ | ⟨a2, l⟩
  · simp at hl
  rcases l with _ | ⟨a3, l⟩
  · simp at hl
  rcases l with _ | ⟨a4, l⟩
  · simp at hl
  rcases l with _ | ⟨a5, l⟩
  · simp at hl
  rcases l with _ | ⟨a6, l⟩
  · simp at hl
  rcases l with _ | ⟨a7, l⟩
  · simp at hl
  rcases l with _ | ⟨a8, l⟩
  · simp at hl
  rcases l with _ | ⟨a9, l⟩
  · simp at hl
  rcases l with _ | ⟨a10, l⟩
  · simp at hl
  rcases l with _ | ⟨a11, l⟩
  · simp at hl
  rcases l with _ | ⟨a12, l⟩
  · exact ⟨a1, a2, a3, a4, a5, a6, a7, a8, a9, a10, a11, rfl⟩
  · simp at hl

/-- C4: when exactly 11 digits remain after stripping non-digits, the
result is the pattern `+7 (XXX) XXX-XX-XX` built from digits 2 through
11 (`(digitsOf raw).drop 1`); in every other case the raw string is
returned unchanged. -/
theorem formatPhone_spec (raw : String) :
    ((digitsOf raw).length = 11 →
      formatPhone raw =
        "+7 (" ++ String.mk (((digitsOf raw).drop 1).take 3) ++ ") " ++
        String.mk ((((digitsOf raw).drop 1).drop 3).take 3) ++ "-" ++
        String.mk ((((digitsOf raw).drop 1).drop 6).take 2) ++ "-" ++
        String.mk ((((digitsOf raw).drop 1).drop 8).take 2)) ∧
    ((digitsOf raw).length ≠ 11 → formatPhone raw = raw) := by
  constructor
  · intro h11
    have hne : raw ≠ "" := by
      intro hx
      rw [hx] at h11
      simp [digitsOf] at h11
    show formatPhone raw = String.mk ['+', '7', ' ', '('] ++ _ ++ String.mk [')', ' '] ++ _
      ++ String.mk ['-'] ++ _ ++ String.mk ['-'] ++ _
    simp only [formatPhone, if_neg hne, h11, if_pos, ite_self, mk_append]
    simp [List.append_assoc]
  · intro hne11
    by_cases hx : raw = ""
    · simp [formatPhone, hx]
    · simp [formatPhone, hx, hne11]

/-- C4 witness: an 11-digit raw number with leading 8 is reformatted, and
a 10-digit one is returned unchanged. -/
theorem formatPhone_spec_witness :
    formatPhone "8 (912) 345-67-89" = "+7 (912) 345-67-89" ∧
    formatPhone "1234567890" = "1234567890" :=
  ⟨((formatPhone_spec "8 (912) 345-67-89").1 (by decide)).trans (by decide),
   (formatPhone_spec "1234567890").2 (by decide)⟩

theorem digitsOf_formatPhone (x : String) (h : (digitsOf x).length = 11) :
    digitsOf (formatPhone x) = '7' :: (digitsOf x).drop 1 := by
  have hne : x ≠ "" := by
    intro hx
    rw [hx] at h
    simp [digitsOf] at h
  obtain ⟨d1, d2, d3, d4, d5, d6, d7, d8, d9, d10, d11, hd⟩ := exists_eleven (digitsOf x) h
  have hdig := digitsOf_sound x
  rw [hd] at hdig
  have q1 : d1.isDigit = true := hdig d1 (by simp)
  have q2 : d2.isDigit = true := hdig d2 (by simp)
  have q3 : d3.isDigit = true := hdig d3 (by simp)
  have q4 : d4.isDigit = true := hdig d4 (by simp)
  have q5 : d5.isDigit = true := hdig d5 (by simp)
  have q6 : d6.isDigit = true := hdig d6 (by simp)
  have q7 : d7.isDigit = true := hdig d7 (by simp)
  have q8 : d8.isDigit = true := hdig d8 (by simp)
  have q9 : d9.isDigit = true := hdig d9 (by simp)
  have q10 : d10.isDigit = true := hdig d10 (by simp)
  have q11 : d11.isDigit = true := hdig d11 (by simp)
  have cplus : ('+'.isDigit) = false := rfl
  have cseven : ('7'.isDigit) = true := rfl
  have cspace : (' '.isDigit) = false := rfl
  have copen : ('('.isDigit) = false := rfl
  have cclose : (')'.isDigit) = false := rfl
  have cdash : ('-'.isDigit) = false := rfl
  simp only [formatPhone, if_neg hne, hd]
  norm_num
  simp [digitsOf, List.filter_cons, q2, q3, q4, q5, q6, q7, q8, q9, q10, q11,
    cplus, cseven, cspace, copen, cclose, cdash]

/-- C8: on any input whose digit content has exactly 11 digits, the digit
content is stable under a second normalization: normalizing the
normalized output changes no digit. -/
theorem formatPhone_roundtrip (x : String) (h : (digitsOf x).length = 11) :
    digitsOf (formatPhone (formatPhone x)) = digitsOf (formatPhone x) := by
  have h1 := digitsOf_formatPhone x h
  have hlen : (digitsOf (formatPhone x)).length = 11 := by
    rw [h1]
    simp [h]
  have h2 := digitsOf_formatPhone (formatPhone x) hlen
  rw [h2, h1]
  simp

/-- C8 witness at a concrete 11-digit input. -/
theorem formatPhone_roundtrip_witness :
    (digitsOf "89123456789").length = 11 ∧
    digitsOf (formatPhone (formatPhone "89123456789")) = digitsOf (formatPhone "89123456789") :=
  ⟨by decide, formatPhone_roundtrip "89123456789" (by decide)⟩

/-- C9: normalization followed by validation accepts every raw string
with exactly 11 digits, whatever its leading digit: the normalized form
starts with the literal `+7` and therefore passes `validatePhone`. -/
theorem validatePhone_formatPhone (raw : String) (h : (digitsOf raw).length = 11) :
    validatePhone (formatPhone raw) = true := by
  have h1 := digitsOf_formatPhone raw h
  by_cases he : formatPhone raw = ""
  · simp [validatePhone, he]
  · simp only [validatePhone, if_neg he]
    rw [h1]
    simp [h]

/-- C9 witness: an 11-digit number starting with neither 7 nor 8 — which
`validatePhone` would reject raw — is accepted after normalization. -/
theorem validatePhone_formatPhone_witness :
    validatePhone "59123456789" = false ∧
    validatePhone (formatPhone "59123456789") = true :=
  ⟨by decide, validatePhone_formatPhone "59123456789" (by decide)⟩

/-! ## C3 — nearest-city suggestion -/

/-- C3: for an invalid name, the suggestion is the first directory entry
(in enumeration order, `List.find?`) whose lowercased name starts with
the lowercased input; failing that, the first whose lowercased name
contains it; failing that, none — and when it is none, no directory
entry contains the input at all.  The embedding is a total function:
no input makes it throw. -/
theorem citySuggestion_spec (name : String) (h : validateCity name = false) :
    (citySuggestion name =
      match RUSSIAN_CITIES.find? (fun c => jsStartsWith (jsToLower c) (jsToLower name)) with
      | some s => some s
      | none => RUSSIAN_CITIES.find? (fun c => jsIncludes (jsToLower c) (jsToLower name))) ∧
    (∀ s, citySuggestion name = some s → s ∈ RUSSIAN_CITIES ∧
      (jsStartsWith (jsToLower s) (jsToLower name)
        || jsIncludes (jsToLower s) (jsToLower name)) = true) ∧
    (citySuggestion name = none →
      ∀ c ∈ RUSSIAN_CITIES, jsIncludes (jsToLower c) (jsToLower name) = false) := by
  have heq : citySuggestion name =
      match RUSSIAN_CITIES.find? (fun c => jsStartsWith (jsToLower c) (jsToLower name)) with
      | some s => some s
      | none => RUSSIAN_CITIES.find? (fun c => jsIncludes (jsToLower c) (jsToLower name)) := by
    simp only [citySuggestion, h, Bool.false_eq_true, if_false, firstHit_eq_find]
  refine ⟨heq, ?_, ?_⟩
  · intro s hs
    rw [heq] at hs
    cases hp : RUSSIAN_CITIES.find? (fun c => jsStartsWith (jsToLower c) (jsToLower name)) with
    | some s' =>
      rw [hp] at hs
      cases hs
      exact ⟨List.mem_of_find?_eq_some hp, by simp [List.find?_some hp]⟩
    | none =>
      rw [hp] at hs
      exact ⟨List.mem_of_find?_eq_some hs, by simp [List.find?_some hs]⟩
  · intro hn c hc
    rw [heq] at hn
    cases hp : RUSSIAN_CITIES.find? (fun c => jsStartsWith (jsToLower c) (jsToLower name)) with
    | some s' => rw [hp] at hn; cases hn
    | none =>
      rw [hp] at hn
      have := List.find?_eq_none.mp hn c hc
      simpa using this

/-- C3 witness: `Мос` is invalid and the first prefix match is
suggested. -/
theorem citySuggestion_spec_witness : citySuggestion "Мос" = some "Москва" :=
  ((citySuggestion_spec "Мос" (by decide)).1).trans (by decide)

/-! ## C1 — city search -/

/-- The search as the claim words it, for comparison with
`searchCities`: matching is done against the whole lowercased query,
with no whitespace trimming beyond the blank-query guard. -/
def searchCitiesClaimSpec (query : String) : List String :=
  if jsTrim query = "" then []
  else
    let q := jsToLower query
    let results :=
      if (cityPrefixMatches q).length < 10 then cityPrefixMatches q ++ cityWordMatches q
      else cityPrefixMatches q
    results.take 15

/-- C1 counterexample: on the query `"Москва "` (trailing blank) the
handler trims and returns the city, while the claim's untrimmed
matching returns nothing. -/
theorem searchCities_claim_counterexample :
    searchCities "Москва " ≠ searchCitiesClaimSpec "Москва " := by
  decide

/-- C1 (amended): a blank query yields `[]`; otherwise, with
`searchTerm` the lowercased, whitespace-trimmed query: when there are at
least 10 prefix matches the result is the first 15 prefix matches and
every result is a prefix match (word matches never appear); when there
are fewer than 10 the result is the prefix matches followed by the word
matches, truncated to 15. -/
theorem searchCities_spec (query : String) :
    (jsTrim query = "" → searchCities query = []) ∧
    (jsTrim query ≠ "" → 10 ≤ (cityPrefixMatches (jsTrim (jsToLower query))).length →
      searchCities query = (cityPrefixMatches (jsTrim (jsToLower query))).take 15 ∧
      ∀ c ∈ searchCities query,
        jsStartsWith (jsToLower c) (jsTrim (jsToLower query)) = true) ∧
    (jsTrim query ≠ "" → (cityPrefixMatches (jsTrim (jsToLower query))).length < 10 →
      searchCities query =
        (cityPrefixMatches (jsTrim (jsToLower query))
          ++ cityWordMatches (jsTrim (jsToLower query))).take 15) := by
  refine ⟨?_, ?_, ?_⟩
  · intro ht
    simp [searchCities, ht]
  · intro ht hlen
    have hres : searchCities query
        = (cityPrefixMatches (jsTrim (jsToLower query))).take 15 := by
      simp only [searchCities, if_neg ht]
      rw [if_neg (by omega : ¬ (cityPrefixMatches (jsTrim (jsToLower query))).length < 10)]
    refine ⟨hres, ?_⟩
    intro c hc
    rw [hres] at hc
    have hmem : c ∈ cityPrefixMatches (jsTrim (jsToLower query)) :=
      List.take_subset 15 _ hc
    exact (List.mem_filter.mp hmem).2
  · intro ht hlen
    simp only [searchCities, if_neg ht, if_pos hlen]

/-- C1 witness: a blank query, a short-prefix query (word matches
appended) and a query with 10 or more prefix matches. -/
theorem searchCities_spec_witness :
    searchCities " " = [] ∧
    searchCities "Мос" = ["Москва"] ∧
    searchCities "но" =
      ["Новосибирск", "Новокузнецк", "Новороссийск", "Норильск", "Новочеркасск",
       "Новомосковск", "Новошахтинск", "Новотроицк", "Ногинск", "Нижний Новгород"] := by
  refine ⟨(searchCities_spec " ").1 (by decide), ?_, ?_⟩
  · exact ((searchCities_spec "Мос").2.2 (by decide) (by decide)).trans (by decide)
  · exact ((searchCities_spec "но").2.2 (by decide) (by decide)).trans (by decide)

/-! ## C5 — filter by creation date -/

theorem validDate_of_parseIso {s : String} {dt : DateTime}
    (h : parseIso s = some dt) : validDate dt = true := by
  unfold parseIso at h
  split at h
  · split at h
    · split at h
      · simp only [Option.ite_none_right_eq_some] at h
        obtain ⟨hv, heq2⟩ := h
        obtain rfl := Option.some.inj heq2
        exact hv
      · cases h
    · cases h
  · cases h

/-- A sample record created half past eleven in the evening, UTC. -/
def lateEveningProject : Project :=
  { id := "p_late", title := "t", tagline := "g", description := "d", image := none,
    city := "Москва", price := 1, contact := ⟨"", "", "", ""⟩,
    createdAt := "2024-01-15T23:30:00.000Z" }

/-- C5 counterexample: on a server whose local clock runs 180 minutes
ahead of UTC (e.g. Moscow), a record created 23:30 UTC belongs to the
next local calendar day, yet the handler files it under the UTC day:
the code and the claim's local-day filter disagree. -/
theorem findByCreationDate_local_counterexample :
    findByCreationDate [lateEveningProject] "2024-01-16" ≠
      findByCreationDateLocalSpec 180 [lateEveningProject] "2024-01-16" := by
  decide

/-- C5 (amended): the handler matches on the UTC date components of the
creation timestamp (the ISO date part), i.e. it agrees with the
local-day filter exactly when the server clock offset is zero,
preserving stored order. -/
theorem findByCreationDate_utc (projects : List Project) (date : String) :
    findByCreationDate projects date = findByCreationDateLocalSpec 0 projects date := by
  unfold findByCreationDate findByCreationDateLocalSpec
  apply List.filter_congr
  intro p _
  cases hp : parseIso p.createdAt with
  | none => rfl
  | some dt =>
    have hv := validDate_of_parseIso hp
    simp only [validDate, Bool.and_eq_true, decide_eq_true_eq] at hv
    have hlocal : localDateString dt 0 = utcDateString dt := by
      unfold localDateString
      rw [if_neg (by omega : ¬ (dt.hour * 60 + dt.minute + 0 : Int) < 0),
        if_neg (by omega : ¬ (1440 : Int) ≤ dt.hour * 60 + dt.minute + 0)]
      rfl
    show (utcDateString dt == date) = (localDateString dt 0 == date)
    rw [hlocal]

/-! ## C6 — CSV export -/

theorem concatStrings_cons (x : String) (l : List String) :
    concatStrings (x :: l) = x ++ concatStrings l := rfl

theorem foldl_row_concat {α : Type} (f : α → String) :
    ∀ (l : List α) (init : String),
      l.foldl (fun acc x => acc ++ f x ++ "\n") init
        = init ++ concatStrings (l.map (fun x => f x ++ "\n"))
  | [], init => by simp [concatStrings]
  | x :: t, init => by
    simp only [List.foldl_cons, List.map_cons, concatStrings_cons]
    rw [foldl_row_concat f t (init ++ f x ++ "\n")]
    simp [String.append_assoc]

/-- A sample record whose stored email — accepted by the
quoted-local-part alternative of the email check — contains both the
delimiter and quote characters. -/
def quotedEmailProject : Project :=
  { id := "p_q", title := "T", tagline := "G", description := "d", image := none,
    city := "Москва", price := 5, contact := ⟨"", "\"a,b\"@mail.ru", "", ""⟩,
    createdAt := "2024-02-01T10:00:00.000Z" }

/-- C6 counterexample: the header row is the Russian one, not
`ID,Title,Description,City,Price,Phone,Email,Handle,CreatedAt`; and the
email field of a record whose email holds quotes and a comma is emitted
wrapped but with its embedded quotes left single, not doubled. -/
theorem exportCsv_claim_counterexample :
    exportCsv [] ≠ "ID,Title,Description,City,Price,Phone,Email,Handle,CreatedAt\n" ∧
    (rowFields quotedEmailProject)[6]? ≠ some (wrapQ (dqS "\"a,b\"@mail.ru")) ∧
    (rowFields quotedEmailProject)[6]? = some "\"\"a,b\"@mail.ru\"" := by
  refine ⟨by decide, by decide, by decide⟩

/-- C6 (amended): the export is the Russian header line
`ID,Название,Описание,Город,Стоимость,Телефон,Email,Telegram,Дата`
followed by one line per record in stored order; the Title and
Description fields are always wrapped in quotes with embedded quotes
doubled, the City, Phone, Email and Telegram fields are wrapped in
quotes verbatim (no doubling), and ID, Price and CreatedAt are emitted
bare. -/
theorem exportCsv_amended (projects : List Project) :
    exportCsv projects =
      "ID,Название,Описание,Город,Стоимость,Телефон,Email,Telegram,Дата\n" ++
      concatStrings (projects.map (fun p =>
        String.intercalate ","
          [p.id, wrapQ (dqS p.title), wrapQ (dqS p.tagline), wrapQ p.city,
           toString p.price, wrapQ p.contact.phone, wrapQ p.contact.email,
           wrapQ p.contact.telegram, p.createdAt] ++ "\n")) := by
  unfold exportCsv
  rw [foldl_row_concat (fun p => String.intercalate "," (rowFields p))]
  rfl

/-! ## C10 — delete removes the record, touches files only for uploads -/

/-- C10: when the record with the requested id is matched, it is removed
from the collection and the request succeeds; the file storage is left
unchanged unless the record's image reference exists and starts with
`uploads/`, in which case exactly that file is unlinked (a no-op when it
does not exist). -/
theorem deleteProject_frame (st : StoreState) (idParam : String) (i : Nat) (p : Project)
    (hfind : st.projects.findIdx? (fun q => q.id == idParam) = some i)
    (hget : st.projects.get? i = some p) :
    (deleteProject st idParam).2 = true ∧
    (deleteProject st idParam).1.projects = st.projects.eraseIdx i ∧
    ((p.image = none ∨ ∃ img, p.image = some img ∧ jsStartsWith img "uploads/" = false) →
      (deleteProject st idParam).1.files = st.files) ∧
    (∀ img, p.image = some img → jsStartsWith img "uploads/" = true →
      (deleteProject st idParam).1.files = st.files.erase img) := by
  unfold deleteProject
  rw [hfind]
  dsimp only
  rw [hget]
  dsimp only
  refine ⟨rfl, rfl, ?_, ?_⟩
  · rintro (hnone | ⟨img, himg, hpre⟩)
    · rw [hnone]
    · rw [himg]
      dsimp only
      rw [if_neg (by simp [hpre])]
  · intro img himg hpre
    rw [himg]
    dsimp only
    rw [hpre, if_pos rfl]
    by_cases hc : img ∈ st.files
    · rw [if_pos (by simpa using hc)]
    · rw [if_neg (by simpa using hc)]
      exact (List.erase_of_not_mem hc).symm

/-- A record with an image reference outside `uploads/`. -/
def externalImageProject : Project :=
  { id := "p_ext", title := "t", tagline := "g", description := "d",
    image := some "assets/logo.png", city := "Москва", price := 2,
    contact := ⟨"", "", "", ""⟩, createdAt := "2024-03-01T08:00:00.000Z" }

/-- A store holding that record and one unrelated stored file. -/
def externalImageState : StoreState :=
  { projects := [externalImageProject], files := ["uploads/other.png"] }

/-- C10 witness: deleting the record whose image reference does not
start with `uploads/` removes the record but leaves file storage
untouched. -/
theorem deleteProject_frame_witness :
    (deleteProject externalImageState "p_ext").2 = true ∧
    (deleteProject externalImageState "p_ext").1.projects = [] ∧
    (deleteProject externalImageState "p_ext").1.files = ["uploads/other.png"] := by
  have h := deleteProject_frame externalImageState "p_ext" 0 externalImageProject
    (by decide) (by decide)
  exact ⟨h.1, h.2.1.trans (by decide),
    (h.2.2.1 (Or.inr ⟨"assets/logo.png", rfl, by decide⟩)).trans (by decide)⟩

end MVP
